import Mathlib

/-!
# Verification of `tracxn_airtable_api.py`

A shallow embedding of the Tracxn→Airtable import script, together with
theorems settling the specification's claims about it.

Conventions of the embedding:
* Python dictionaries become association lists `List (String × _)`;
  assignment `d[k] = v` becomes `dictSet`, which updates the first binding
  in place (Python dicts keep insertion order and overwrite values), and
  lookup `d[k]` is `dictGet?`, raising `KeyError` (`Except.error ()`)
  when the key is absent.
* Python values occurring in rows become the inductive type `PyVal`
  (strings, ints, `None`, lists, tuples, dicts).  A tuple and a list are
  distinct values, as in Python.
* Fallible code returns `Except Unit _`; an `Except.error ()` stands for a
  raised exception.
* External collaborators (the Tracxn HTTP response, the Airtable table
  contents, the environment variables) are parameters of the modelled
  functions; the model records every row passed to `table.create` so that
  "a write was performed" is observable.
-/

/-- A Python value as it occurs in rows and records of the script.
`utils.attachment(url)` is the dict `{"url": url}`. -/
inductive PyVal where
  | none
  | str (s : String)
  | int (n : Int)
  | list (xs : List PyVal)
  | tuple (xs : List PyVal)
  | dict (kvs : List (String × PyVal))
  deriving Repr

mutual

/-- Python `==` on the modelled values (a tuple never equals a list). -/
def PyVal.beq : PyVal → PyVal → Bool
  | .none, .none => true
  | .str a, .str b => a == b
  | .int a, .int b => a == b
  | .list xs, .list ys => PyVal.beqList xs ys
  | .tuple xs, .tuple ys => PyVal.beqList xs ys
  | .dict xs, .dict ys => PyVal.beqDict xs ys
  | _, _ => false

def PyVal.beqList : List PyVal → List PyVal → Bool
  | [], [] => true
  | x :: xs, y :: ys => PyVal.beq x y && PyVal.beqList xs ys
  | _, _ => false

def PyVal.beqDict : List (String × PyVal) → List (String × PyVal) → Bool
  | [], [] => true
  | (k, v) :: xs, (l, w) :: ys => k == l && PyVal.beq v w && PyVal.beqDict xs ys
  | _, _ => false

end

instance : BEq PyVal := ⟨PyVal.beq⟩

/-! ## `simplify_url` (the URL normalizer)

The source calls `urllib.parse.urlparse(url, scheme='http')` and keeps only
`.netloc`.  We model the netloc computation of CPython's `urlsplit`:
removal of tab/CR/LF, scheme stripping (a leading run of scheme characters
before a `':'`, whose first character is an ASCII letter), and then a
netloc only when the remainder starts with `"//"`.  The `ValueError` for
unbalanced-bracket netlocs and the non-ASCII NFKC check of `_checknetloc`
are outside this model: every input considered here is ASCII and
bracket-free, where `urlsplit` never raises. -/

/-- `_UNSAFE_URL_BYTES_TO_REMOVE`: urlsplit deletes tab, CR and LF. -/
def urlStripControlChars (cs : List Char) : List Char :=
  cs.filter (fun c => !(c == '\t' || c == '\r' || c == '\n'))

/-- Membership in CPython's `scheme_chars` (ASCII letters, digits, `+-.`). -/
def schemeChar (c : Char) : Bool :=
  c.isAlpha || c.isDigit || c == '+' || c == '-' || c == '.'

/-- The scheme-stripping step of `urlsplit`: if the text before the first
`':'` is nonempty, starts with an ASCII letter and consists of scheme
characters, drop it together with the colon. -/
def stripScheme (cs : List Char) : List Char :=
  if decide ((cs.takeWhile (fun c => c != ':')).length < cs.length)
      && !(cs.takeWhile (fun c => c != ':')).isEmpty
      && ((cs.takeWhile (fun c => c != ':')).headD ' ').isAlpha
      && (cs.takeWhile (fun c => c != ':')).all schemeChar then
    cs.drop ((cs.takeWhile (fun c => c != ':')).length + 1)
  else
    cs

/-- `urlparse(url, scheme='http').netloc`: after unsafe-byte removal and
scheme stripping, the netloc is the text between a leading `"//"` and the
first `/`, `?` or `#`; without a leading `"//"` the netloc is empty.
(The default scheme `'http'` only fills the `.scheme` field; it does not
make a scheme-less input parse as a netloc.) -/
def urlparseNetloc (cs : List Char) : List Char :=
  if (stripScheme (urlStripControlChars cs)).take 2 = ['/', '/'] then
    ((stripScheme (urlStripControlChars cs)).drop 2).takeWhile
      (fun c => c != '/' && c != '?' && c != '#')
  else
    []

/-- `simplify_url` from the source: netloc of `urlparse(url, scheme='http')`,
then strip a leading `"www."`, then `split(':')[0]`. -/
def simplify_url (url : String) : String :=
  String.mk
    ((if (urlparseNetloc url.data).take 4 = ['w', 'w', 'w', '.']
      then (urlparseNetloc url.data).drop 4
      else urlparseNetloc url.data).takeWhile (fun c => c != ':'))

/-! ## Dictionaries

A Python dict with string keys is an association list read through
`dictGet?` (first binding wins; bindings are unique in every dict the
script builds).  `dictSet d k v` is Python's `d[k] = v` on an
insertion-ordered dict: if the key is present its value is replaced in
place, otherwise the pair is appended. -/

def dictGet? {β : Type} : List (String × β) → String → Option β
  | [], _ => Option.none
  | p :: es, k => if p.1 = k then some p.2 else dictGet? es k

/-- `k in d` for a dict. -/
def dictHasKey {β : Type} (d : List (String × β)) (k : String) : Bool :=
  d.any (fun p => p.1 == k)

def dictSet (d : List (String × PyVal)) (k : String) (v : PyVal) :
    List (String × PyVal) :=
  if dictHasKey d k then
    d.map (fun p => if p.1 = k then (k, v) else p)
  else
    d ++ [(k, v)]

/-! ## The provider record and `extract_data` (the field mapper)

A Tracxn company record, restricted to the attributes the script reads.
`Option.none` at any level models the corresponding JSON key being absent
(so that subscripting it raises `KeyError`). -/

structure Location where
  city : Option String
  country : Option String
  continent : Option String
  deriving Repr

structure Description where
  short : Option String
  long : Option String
  deriving Repr

structure CompanyRecord where
  name : Option String
  /-- `logos` dict: absent, or present with an optional `imageUrl` entry. -/
  logos : Option (Option String)
  description : Option Description
  location : Option Location
  foundedYear : Option Int
  /-- `latestEmployeeCount` dict: absent, or present with an optional `value`. -/
  latestEmployeeCount : Option (Option Int)
  domain : Option String
  deriving Repr

/-- The empty company record (every attribute absent). -/
def CompanyRecord.empty : CompanyRecord :=
  ⟨Option.none, Option.none, Option.none, Option.none, Option.none, Option.none,
    Option.none⟩

/-- One entry of the `field_processor` dispatch of `extract_data`, applied to
a company record.  `Option.none` means the canonical field name is not a key
of `field_processor` (nothing is stored); `some (Except.error ())` means the
lambda raised (the `except` branch stores `None`); `some (Except.ok v)` is a
successful extraction.  The keys are exactly the source's, including the
`"Headquaters"` spelling. -/
def processField (field : String) (c : CompanyRecord) :
    Option (Except Unit PyVal) :=
  if field = "Name" then
    -- c.get('name', '')
    some (Except.ok (PyVal.str (c.name.getD "")))
  else if field = "Logo" then
    -- (utils.attachment(c['logos']['imageUrl']) if c['logos']['imageUrl'] else [],)
    -- note the trailing comma: the value is a one-element tuple
    some (match c.logos with
      | some (some u) =>
          Except.ok (if u ≠ "" then PyVal.tuple [PyVal.dict [("url", PyVal.str u)]]
                     else PyVal.tuple [PyVal.list []])
      | _ => Except.error ())
  else if field = "Short Description" then
    -- c['description']['short']
    some (match c.description with
      | some d => match d.short with
        | some s => Except.ok (PyVal.str s)
        | Option.none => Except.error ()
      | Option.none => Except.error ())
  else if field = "Long Description" then
    -- c['description']['long']
    some (match c.description with
      | some d => match d.long with
        | some s => Except.ok (PyVal.str s)
        | Option.none => Except.error ()
      | Option.none => Except.error ())
  else if field = "Headquaters" then
    -- ", ".join([c['location']['city'], c['location']['country'], c['location']['continent']])
    some (match c.location with
      | some loc => match loc.city, loc.country, loc.continent with
        | some ci, some co, some ct =>
            Except.ok (PyVal.str (String.intercalate ", " [ci, co, ct]))
        | _, _, _ => Except.error ()
      | Option.none => Except.error ())
  else if field = "Founded Year" then
    -- str(c['foundedYear']) + "-01-01"
    some (match c.foundedYear with
      | some y => Except.ok (PyVal.str (toString y ++ "-01-01"))
      | Option.none => Except.error ())
  else if field = "Employee Count" then
    -- c['latestEmployeeCount']['value']
    some (match c.latestEmployeeCount with
      | some (some v) => Except.ok (PyVal.int v)
      | _ => Except.error ())
  else if field = "URL" then
    -- c.get('domain', '')
    some (Except.ok (PyVal.str (c.domain.getD "")))
  else
    Option.none

/-- One iteration of the inner loop of `extract_data`: for a mapping entry
`(field, airtable_field)`, if the destination name is truthy, run the
field's processor; a success stores the value, a raised exception stores
`None` (`data_dict[field_names[field]] = None`), an unknown canonical field
stores nothing. -/
def extractStep (c : CompanyRecord) (d : List (String × PyVal))
    (pair : String × String) : List (String × PyVal) :=
  if pair.2 ≠ "" then
    match processField pair.1 c with
    | Option.none => d
    | some (Except.ok v) => dictSet d pair.2 v
    | some (Except.error _) => dictSet d pair.2 PyVal.none
  else
    d

/-- `extract_data(json_file, field_names)`: iterate over every company in
the result list, and for each over the configured mapping, accumulating
into one dict.  `field_names` is the (insertion-ordered) `fields` mapping
of the configuration; a destination of `""` stands for any falsy
destination (empty string or `null`). -/
def extract_data (result : List CompanyRecord)
    (field_names : List (String × String)) : List (String × PyVal) :=
  result.foldl (fun d c => field_names.foldl (extractStep c) d) []

-- the canonical spelling used by the spec, "Headquarters", is not a key of

/-! ## `extract_keys` (the reference-link key extractor)

`re.search(r'https://airtable.com/(app[\w\d]+)/([\w\d]+)/', url)`.
The pattern is a literal except for the `.` (any character but a newline)
and the two groups.  Because `/` is not a word character, the greedy
`[\w\d]+` groups match deterministically: each is the maximal run of word
characters, which must then be followed by `/`.  `re.search` tries every
start position from the left.  `\w` is modelled over its ASCII behaviour
(letters, digits, underscore); all inputs considered are ASCII. -/

def isWordChar (c : Char) : Bool :=
  c.isAlpha || c.isDigit || c == '_'

/-- Consume an exact literal prefix, or fail. -/
def dropLiteral : List Char → List Char → Option (List Char)
  | [], cs => some cs
  | _ :: _, [] => Option.none
  | l :: ls, c :: cs => if c = l then dropLiteral ls cs else Option.none

/-- Try to match the whole pattern at the start of `cs`, returning the two
groups `(app<run>, <run>)`. -/
def matchKeysAt (cs : List Char) : Option (String × String) :=
  match dropLiteral "https://airtable".data cs with
  | Option.none => Option.none
  | some cs =>
    match cs with
    | [] => Option.none
    | dot :: cs =>
      if dot = '\n' then Option.none   -- `.` matches any character but newline
      else
        match dropLiteral "com/app".data cs with
        | Option.none => Option.none
        | some cs =>
          let w1 := cs.takeWhile isWordChar
          let cs := cs.dropWhile isWordChar
          if w1.isEmpty then Option.none
          else
            match cs with
            | '/' :: cs =>
              let w2 := cs.takeWhile isWordChar
              let cs := cs.dropWhile isWordChar
              if w2.isEmpty then Option.none
              else
                match cs with
                | '/' :: _ => some ("app" ++ String.mk w1, String.mk w2)
                | _ => Option.none
            | _ => Option.none

/-- `re.search`: leftmost position at which the pattern matches. -/
def searchKeys : List Char → Option (String × String)
  | [] => Option.none
  | c :: cs =>
    match matchKeysAt (c :: cs) with
    | some r => some r
    | Option.none => searchKeys cs

/-- `extract_keys(url)`: the two regex groups as `(baseKey, tableKey)`, or
`(None, None)` when the pattern does not match anywhere. -/
def extract_keys (url : String) : Option String × Option String :=
  match searchKeys url.data with
  | some (b, t) => (some b, some t)
  | Option.none => (Option.none, Option.none)

/-! ## `add_data_to_table` (the duplicate guard and the insert)

The Airtable record dicts returned by `table.all()` have the shape
`{"id": ..., "createdTime": ..., "fields": {...}}`; the model keeps each
record as a plain dict so that the source's subscripts are modelled
exactly as written — in particular `row["field"]`, which for such records
raises `KeyError`. -/

/-- Python `d[k]` on a string-keyed dict: `KeyError` when absent. -/
def pyGet (d : List (String × PyVal)) (k : String) : Except Unit PyVal :=
  match dictGet? d k with
  | some v => Except.ok v
  | Option.none => Except.error ()

/-- `field_names[k]` on the configuration mapping. -/
def fnGet (fns : List (String × String)) (k : String) : Except Unit String :=
  match dictGet? fns k with
  | some v => Except.ok v
  | Option.none => Except.error ()

/-- Python's substring test `small in big`. -/
def strContains (small : List Char) : List Char → Bool
  | [] => small.isEmpty
  | c :: cs => List.isPrefixOf small (c :: cs) || strContains small cs

/-- Python `key in container`: key membership for a dict, substring test
for a string, element membership for a list or tuple, `TypeError`
otherwise. -/
def pyContains (key : String) (container : PyVal) : Except Unit Bool :=
  match container with
  | PyVal.dict kvs => Except.ok (dictHasKey kvs key)
  | PyVal.str s => Except.ok (strContains key.data s.data)
  | PyVal.list xs => Except.ok (xs.any (fun v => PyVal.beq v (PyVal.str key)))
  | PyVal.tuple xs => Except.ok (xs.any (fun v => PyVal.beq v (PyVal.str key)))
  | _ => Except.error ()

/-- Python `container[k]` where the code expects a dict. -/
def pySubscript (container : PyVal) (k : String) : Except Unit PyVal :=
  match container with
  | PyVal.dict kvs => pyGet kvs k
  | _ => Except.error ()

/-- The `for row in table_content:` loop of `add_data_to_table`, evaluating
the condition
`field_names["URL"] in row["field"] and row["fields"][field_names["URL"]] == data_dict[field_names["URL"]]`
left to right with Python's short-circuit `and`.  Returns `false` when a
duplicate is found, `true` when the loop finishes. -/
def dupScan (data_dict : List (String × PyVal)) (fns : List (String × String)) :
    List (List (String × PyVal)) → Except Unit Bool
  | [] => Except.ok true
  | row :: rest => do
    let urlCol ← fnGet fns "URL"
    let fieldVal ← pyGet row "field"
    let c1 ← pyContains urlCol fieldVal
    if c1 then do
      let fieldsVal ← pyGet row "fields"
      let lhs ← pySubscript fieldsVal urlCol
      let rhs ← pyGet data_dict urlCol
      if PyVal.beq lhs rhs then
        pure false
      else
        dupScan data_dict fns rest
    else
      dupScan data_dict fns rest

/-- The observable outcome of `add_data_to_table`: the returned value (or
the raised exception), and every row passed to `table.create`. -/
structure TableOp where
  result : Except Unit Bool
  creates : List (List (String × PyVal))
  deriving Repr

/-- `add_data_to_table(data_dict, table, field_names, check_for_url)`.
`table_content` is what `table.all()` returns; with `check_for_url` false
(the default, and the only way `main` calls it) the row is created
unconditionally and the table is never read. -/
def add_data_to_table (data_dict : List (String × PyVal))
    (table_content : List (List (String × PyVal)))
    (field_names : List (String × String)) (check_for_url : Bool) : TableOp :=
  if !check_for_url then
    { result := Except.ok true, creates := [data_dict] }
  else
    match dupScan data_dict field_names table_content with
    | Except.ok true => { result := Except.ok true, creates := [data_dict] }
    | Except.ok false => { result := Except.ok false, creates := [] }
    | Except.error e => { result := Except.error e, creates := [] }

/-- A well-formed Airtable record as returned by `table.all()`. -/
def airRecord (id : String) (fields : List (String × PyVal)) :
    List (String × PyVal) :=
  [("id", PyVal.str id), ("createdTime", PyVal.str "2024-01-01T00:00:00.000Z"),
   ("fields", PyVal.dict fields)]

-- with the check enabled, any nonempty table makes the scan raise KeyError

/-! ## `main` (the sync orchestrator)

`main` runs, in order: read `config.json`; `extract_keys` on the Airtable
link (raising `ValueError` when either key is `None`); `simplify_url` on
the company link; `getAirtableAPI` (raising when `API_KEY_AIRTABLE` is
unset or empty); `getAirtableTable` (a local constructor call, modelled as
always succeeding); `getTraxcnToken` (raising when `API_KEY_TRACXN` is
unset or empty); `request_data` (raising `ValueError` unless the HTTP
status is 200, otherwise returning the JSON body); `extract_data`; and
`add_data_to_table` called WITHOUT `check_for_url`, which therefore
defaults to `False`.

The external world of one run is a parameter: the two environment
variables, the provider's HTTP response (status and optional `"result"`
list — `extract_data` is applied to `json_file.get("result", [])`), and
the current table contents.  Note that `request_data` applies
`simplify_url` to its argument, which `main` has already simplified. -/

structure Config where
  fields : List (String × String)
  airtableLink : String
  companyLink : String

structure ProviderResponse where
  status : Nat
  result? : Option (List CompanyRecord)

inductive RunError where
  /-- `ValueError("Invalid Airtable URL in the configuration.")` -/
  | invalidAirtableUrl
  /-- `ValueError` from `getAirtableAPI` or `getTraxcnToken`. -/
  | credentialError
  /-- `ValueError("Error in API request or Company not found in Tracxn Database")` -/
  | notFoundError
  /-- an uncaught `KeyError` from the dict accesses -/
  | keyError
  deriving Repr, DecidableEq

/-- The observable outcome of one `main` run: the exception that
propagated (or `none` on success — the handler re-raises), and every row
passed to `table.create`. -/
structure RunOutcome where
  error? : Option RunError
  creates : List (List (String × PyVal))
  deriving Repr

def main_run (cfg : Config) (airtableKey tracxnKey : Option String)
    (resp : ProviderResponse)
    (tableContent : List (List (String × PyVal))) : RunOutcome :=
  match extract_keys cfg.airtableLink with
  | (some _, some _) =>
    -- company_url = simplify_url(config['links']['company'])
    let company_url := simplify_url cfg.companyLink
    match airtableKey with
    | some ak =>
      if ak ≠ "" then
        match tracxnKey with
        | some tk =>
          if tk ≠ "" then
            -- request_data posts {"filter": {"domain": [simplify_url(company_url)]}}
            -- (the double application); `resp` is the provider's answer to it
            let _queriedDomain := simplify_url company_url
            if resp.status = 200 then
              let data := extract_data (resp.result?.getD []) cfg.fields
              let op := add_data_to_table data tableContent cfg.fields false
              match op.result with
              | Except.ok _ => { error? := Option.none, creates := op.creates }
              | Except.error _ => { error? := some RunError.keyError,
                                    creates := op.creates }
            else
              { error? := some RunError.notFoundError, creates := [] }
          else
            { error? := some RunError.credentialError, creates := [] }
        | Option.none => { error? := some RunError.credentialError, creates := [] }
      else
        { error? := some RunError.credentialError, creates := [] }
    | Option.none => { error? := some RunError.credentialError, creates := [] }
  | _ => { error? := some RunError.invalidAirtableUrl, creates := [] }

/-- The configuration of the spec's end-to-end scenarios:
`Name→"Company"`, `URL→"URL"`, a valid Airtable link, company `acme.com`. -/
def acmeConfig : Config :=
  { fields := [("Name", "Company"), ("URL", "URL")],
    airtableLink := "https://airtable.com/appABC123/tblXYZ789/viwDEF",
    companyLink := "acme.com" }

/-- The provider record of the spec's end-to-end scenarios. -/
def acmeRecord : CompanyRecord :=
  { CompanyRecord.empty with name := some "Acme", domain := some "acme.com" }


/-! ## Value shapes and concrete fixtures used by the theorems -/

/-- The value stored for a processed field: the extracted value on success,
`None` when the field's lambda raised. -/
def extractedValue : Except Unit PyVal → PyVal
  | Except.ok v => v
  | Except.error _ => PyVal.none

/-- What the `"Headquaters"` processor leaves in the row: the comma-joined
city, country, continent when all three are present, the `None` marker
(via the `except` branch) otherwise. -/
def hqValue (c : CompanyRecord) : PyVal :=
  match c.location with
  | some loc =>
    match loc.city, loc.country, loc.continent with
    | some ci, some co, some ct =>
        PyVal.str (String.intercalate ", " [ci, co, ct])
    | _, _, _ => PyVal.none
  | Option.none => PyVal.none

/-- What the `"Logo"` processor leaves in the row: a one-element tuple
holding the attachment dict when `imageUrl` is present and non-empty, a
one-element tuple holding an empty list when `imageUrl` is present but
empty, and the `None` marker (via the `except` branch) when `logos` or
`imageUrl` is missing. -/
def logoValue (c : CompanyRecord) : PyVal :=
  match c.logos with
  | some (some u) =>
      if u ≠ "" then PyVal.tuple [PyVal.dict [("url", PyVal.str u)]]
      else PyVal.tuple [PyVal.list []]
  | _ => PyVal.none

/-- A record whose location is fully populated. -/
def hqRecord : CompanyRecord :=
  { CompanyRecord.empty with
      location := some ⟨some "Berlin", some "Germany", some "Europe"⟩ }

/-- A record whose `logos.imageUrl` is present but empty (falsy). -/
def logoEmptyUrlRecord : CompanyRecord :=
  { CompanyRecord.empty with logos := some (some "") }

/-- A record whose `logos` dict lacks the `imageUrl` key. -/
def logoMissingUrlRecord : CompanyRecord :=
  { CompanyRecord.empty with logos := some Option.none }

/-- A record with a normal logo URL. -/
def logoOkRecord : CompanyRecord :=
  { CompanyRecord.empty with
      logos := some (some "https://img.tracxn.com/logo.png") }

/-! ## Lookup and membership lemmas for `dictSet` -/

theorem dictGet?_map_update_self (k : String) (v : PyVal) :
    ∀ d : List (String × PyVal), dictHasKey d k = true →
      dictGet? (d.map (fun p => if p.1 = k then (k, v) else p)) k = some v
  | [] => by intro h; cases h
  | p :: es => by
    intro h
    by_cases hp : p.1 = k
    · simp [dictGet?, hp]
    · have hes : dictHasKey es k = true := by
        have : ¬((p.1 == k) = true) := fun hb => hp (eq_of_beq hb)
        simpa [dictHasKey, List.any_cons, this] using h
      simp [dictGet?, hp, dictGet?_map_update_self k v es hes]

theorem dictGet?_map_update_ne (k k' : String) (v : PyVal) (h : k' ≠ k) :
    ∀ d : List (String × PyVal),
      dictGet? (d.map (fun p => if p.1 = k then (k, v) else p)) k' =
        dictGet? d k'
  | [] => rfl
  | p :: es => by
    by_cases hp : p.1 = k
    · have h1 : k ≠ k' := fun e => h e.symm
      have h2 : p.1 ≠ k' := hp ▸ h1
      simp [dictGet?, hp, h1, h2, dictGet?_map_update_ne k k' v h es]
    · by_cases hk : p.1 = k'
      · simp [dictGet?, hp, hk, h]
      · simp [dictGet?, hp, hk, dictGet?_map_update_ne k k' v h es]

theorem dictGet?_append_last_self (k : String) (v : PyVal) :
    ∀ d : List (String × PyVal), dictHasKey d k = false →
      dictGet? (d ++ [(k, v)]) k = some v
  | [] => by intro _; simp [dictGet?]
  | p :: es => by
    intro h
    have hp : ¬((p.1 == k) = true) := by
      intro hb
      simp [dictHasKey, List.any_cons, hb] at h
    have hp' : p.1 ≠ k := fun e => hp (beq_iff_eq.mpr e)
    have hes : dictHasKey es k = false := by
      simpa [dictHasKey, List.any_cons, hp] using h
    simp [dictGet?, hp', dictGet?_append_last_self k v es hes]

theorem dictGet?_append_last_ne (k k' : String) (v : PyVal) (h : k' ≠ k) :
    ∀ d : List (String × PyVal),
      dictGet? (d ++ [(k, v)]) k' = dictGet? d k'
  | [] => by
    have h' : k ≠ k' := fun e => h e.symm
    simp [dictGet?, h']
  | p :: es => by
    by_cases hk : p.1 = k'
    · simp [dictGet?, hk]
    · simp [dictGet?, hk, dictGet?_append_last_ne k k' v h es]

/-- `d[k] = v` makes a later read of `k` return `v`. -/
theorem dictGet?_dictSet_self (d : List (String × PyVal)) (k : String)
    (v : PyVal) : dictGet? (dictSet d k v) k = some v := by
  unfold dictSet
  by_cases h : dictHasKey d k = true
  · rw [if_pos h]; exact dictGet?_map_update_self k v d h
  · rw [if_neg h]
    exact dictGet?_append_last_self k v d (Bool.of_not_eq_true h)

/-- `d[k] = v` does not change reads of other keys. -/
theorem dictGet?_dictSet_ne (d : List (String × PyVal)) (k k' : String)
    (v : PyVal) (h : k' ≠ k) : dictGet? (dictSet d k v) k' = dictGet? d k' := by
  unfold dictSet
  by_cases hc : dictHasKey d k = true
  · rw [if_pos hc]; exact dictGet?_map_update_ne k k' v h d
  · rw [if_neg hc]; exact dictGet?_append_last_ne k k' v h d

/-- Every binding of `dictSet d k v` is a binding of `d` or the new one. -/
theorem mem_dictSet {d : List (String × PyVal)} {k : String} {v : PyVal}
    {q : String × PyVal} (h : q ∈ dictSet d k v) : q ∈ d ∨ q = (k, v) := by
  unfold dictSet at h
  by_cases hc : dictHasKey d k = true
  · rw [if_pos hc] at h
    obtain ⟨p, hp, he⟩ := List.mem_map.mp h
    by_cases hpk : p.1 = k
    · right; rw [if_pos hpk] at he; exact he.symm
    · left; rw [if_neg hpk] at he; exact he ▸ hp
  · rw [if_neg hc] at h
    rcases List.mem_append.mp h with h | h
    · exact Or.inl h
    · exact Or.inr (List.mem_singleton.mp h)

/-! ## What `extract_data` stores per configured field -/

/-- A mapping entry that does not target column `col` (or stores nothing at
all) leaves reads of `col` unchanged. -/
theorem dictGet?_extractStep_ne (c : CompanyRecord) (d : List (String × PyVal))
    (pr : String × String) (col : String)
    (h : pr.2 ≠ col ∨ pr.2 = "" ∨ processField pr.1 c = Option.none) :
    dictGet? (extractStep c d pr) col = dictGet? d col := by
  unfold extractStep
  by_cases h2 : pr.2 ≠ ""
  · rw [if_pos h2]
    have hne : pr.2 ≠ col ∨ processField pr.1 c = Option.none := by
      rcases h with h | h | h
      · exact Or.inl h
      · exact absurd h h2
      · exact Or.inr h
    cases hp : processField pr.1 c with
    | none => rfl
    | some r =>
      have hcol : col ≠ pr.2 := by
        rcases hne with h' | h'
        · exact fun e => h' e.symm
        · rw [hp] at h'; cases h'
      cases r with
      | ok v => exact dictGet?_dictSet_ne d pr.2 col v hcol
      | error e => exact dictGet?_dictSet_ne d pr.2 col PyVal.none hcol
  · rw [if_neg h2]

/-- If no entry of the mapping writes to `col`, the fold leaves `col`
unchanged. -/
theorem dictGet?_foldl_extractStep_ne (c : CompanyRecord) (col : String) :
    ∀ (pairs : List (String × String)) (d : List (String × PyVal)),
      (∀ p ∈ pairs, p.2 ≠ col ∨ p.2 = "" ∨ processField p.1 c = Option.none) →
      dictGet? (pairs.foldl (extractStep c) d) col = dictGet? d col
  | [], d => by intro _; rfl
  | pr :: rest, d => by
    intro h
    rw [List.foldl_cons]
    rw [dictGet?_foldl_extractStep_ne c col rest (extractStep c d pr)
      (fun p hp => h p (List.mem_cons_of_mem _ hp))]
    exact dictGet?_extractStep_ne c d pr col (h pr (List.mem_cons_self pr rest))

/-- If `(g, col)` is an entry of the mapping, every entry targeting `col`
is that one, and the field `g` is processed with result `r`, then the fold
stores exactly `extractedValue r` under `col`.  (A duplicate of the entry
would rewrite the same value, so uniqueness of keys is not needed.) -/
theorem dictGet?_foldl_extractStep_write (c : CompanyRecord) (g col : String)
    (r : Except Unit PyVal) (hcol : col ≠ "")
    (hproc : processField g c = some r) :
    ∀ (pairs : List (String × String)) (d : List (String × PyVal)),
      (g, col) ∈ pairs →
      (∀ p ∈ pairs, p.2 = col → p = (g, col)) →
      dictGet? (pairs.foldl (extractStep c) d) col = some (extractedValue r)
  | [], d => by intro hmem; cases hmem
  | pr :: rest, d => by
    intro hmem hall
    rw [List.foldl_cons]
    by_cases hpr : pr = (g, col)
    · subst hpr
      have hstep : extractStep c d (g, col) = dictSet d col (extractedValue r) := by
        unfold extractStep
        rw [if_pos hcol, hproc]
        cases r with
        | ok v => rfl
        | error e => rfl
      rw [hstep]
      by_cases hmem' : (g, col) ∈ rest
      · exact dictGet?_foldl_extractStep_write c g col r hcol hproc rest _ hmem'
          (fun p hp hc => hall p (List.mem_cons_of_mem _ hp) hc)
      · have hno : ∀ p ∈ rest, p.2 ≠ col ∨ p.2 = "" ∨ processField p.1 c = Option.none := by
          intro p hp
          by_cases hc : p.2 = col
          · exact absurd ((hall p (List.mem_cons_of_mem _ hp) hc) ▸ hp) hmem'
          · exact Or.inl hc
        rw [dictGet?_foldl_extractStep_ne c col rest _ hno]
        exact dictGet?_dictSet_self d col (extractedValue r)
    · have hmem' : (g, col) ∈ rest :=
        (List.mem_cons.mp hmem).resolve_left (fun e => hpr e.symm)
      exact dictGet?_foldl_extractStep_write c g col r hcol hproc rest _ hmem'
        (fun p hp hc => hall p (List.mem_cons_of_mem _ hp) hc)

/-- Specialisation to a one-record provider result: what `extract_data`
stores under the destination column of a processed canonical field. -/
theorem dictGet?_extract_data_single (m : List (String × String))
    (c : CompanyRecord) (g col : String) (r : Except Unit PyVal)
    (hmem : (g, col) ∈ m) (hcol : col ≠ "")
    (hall : ∀ p ∈ m, p.2 = col → p = (g, col))
    (hproc : processField g c = some r) :
    dictGet? (extract_data [c] m) col = some (extractedValue r) :=
  dictGet?_foldl_extractStep_write c g col r hcol hproc m [] hmem hall

/-- Every binding produced by `extractStep` existed before or is keyed by
the entry's (truthy) destination column. -/
theorem mem_extractStep {c : CompanyRecord} {d : List (String × PyVal)}
    {pr : String × String} {q : String × PyVal} (h : q ∈ extractStep c d pr) :
    q ∈ d ∨ (q.1 = pr.2 ∧ pr.2 ≠ "") := by
  unfold extractStep at h
  by_cases h2 : pr.2 ≠ ""
  · rw [if_pos h2] at h
    cases hp : processField pr.1 c with
    | none => rw [hp] at h; exact Or.inl h
    | some r =>
      rw [hp] at h
      cases r with
      | ok v =>
        rcases mem_dictSet h with h' | h'
        · exact Or.inl h'
        · exact Or.inr ⟨by rw [h'], h2⟩
      | error e =>
        rcases mem_dictSet h with h' | h'
        · exact Or.inl h'
        · exact Or.inr ⟨by rw [h'], h2⟩
  · rw [if_neg h2] at h
    exact Or.inl h

/-- Keys produced by folding one record over the mapping. -/
theorem mem_foldl_extractStep {c : CompanyRecord} {q : String × PyVal} :
    ∀ {pairs : List (String × String)} {d : List (String × PyVal)},
      q ∈ pairs.foldl (extractStep c) d →
      q ∈ d ∨ ∃ f, (f, q.1) ∈ pairs ∧ q.1 ≠ ""
  | [], d => fun h => Or.inl h
  | pr :: rest, d => by
    intro h
    rw [List.foldl_cons] at h
    rcases mem_foldl_extractStep h with h' | ⟨f, hf, hq⟩
    · rcases mem_extractStep h' with h'' | ⟨he, hne⟩
      · exact Or.inl h''
      · refine Or.inr ⟨pr.1, ?_, he ▸ hne⟩
        have : (pr.1, q.1) = pr := by rw [he]
        rw [this]
        exact List.mem_cons_self pr rest
    · exact Or.inr ⟨f, List.mem_cons_of_mem _ hf, hq⟩

/-- Keys produced by the whole of `extract_data`. -/
theorem mem_extract_data {m : List (String × String)} {q : String × PyVal} :
    ∀ {result : List CompanyRecord} {d : List (String × PyVal)},
      q ∈ result.foldl (fun d c => m.foldl (extractStep c) d) d →
      q ∈ d ∨ ∃ f, (f, q.1) ∈ m ∧ q.1 ≠ ""
  | [], d => fun h => Or.inl h
  | c :: cs, d => by
    intro h
    rw [List.foldl_cons] at h
    rcases mem_extract_data h with h' | he
    · exact mem_foldl_extractStep h'
    · exact Or.inr he

/-! ## `simplify_url` output shape

The output of `simplify_url` never contains `':'` (everything from the
first colon is dropped), never contains `'/'` (the netloc stops at the
first slash), and never contains tab/CR/LF (removed on entry).  A string
of that shape has no scheme and no `"//"`, so `urlparse` gives it an empty
netloc — which is why a second application of `simplify_url` always
returns the empty string. -/

theorem mem_of_mem_takeWhile {α : Type} {p : α → Bool} :
    ∀ {l : List α} {a : α}, a ∈ l.takeWhile p → a ∈ l
  | [], _ => fun h => h
  | x :: xs, a => by
    intro h
    cases hp : p x with
    | true =>
      rw [List.takeWhile_cons, if_pos hp] at h
      rcases List.mem_cons.mp h with h | h
      · exact h ▸ List.mem_cons_self x xs
      · exact List.mem_cons_of_mem _ (mem_of_mem_takeWhile h)
    | false =>
      rw [List.takeWhile_cons, if_neg (by simp [hp])] at h
      cases h

theorem takeWhile_eq_self_of_all {α : Type} {p : α → Bool} :
    ∀ {l : List α}, (∀ a ∈ l, p a = true) → l.takeWhile p = l
  | [] => fun _ => rfl
  | x :: xs => fun h => by
    rw [List.takeWhile_cons, if_pos (h x (List.mem_cons_self x xs)),
      takeWhile_eq_self_of_all (fun a ha => h a (List.mem_cons_of_mem _ ha))]

theorem mem_stripScheme {cs : List Char} {a : Char} (h : a ∈ stripScheme cs) :
    a ∈ cs := by
  unfold stripScheme at h
  split at h
  · exact List.mem_of_mem_drop h
  · exact h

theorem mem_urlparseNetloc {cs : List Char} {a : Char}
    (h : a ∈ urlparseNetloc cs) :
    a ∈ cs ∧ (a != '/' && a != '?' && a != '#') = true
    ∧ (!(a == '\t' || a == '\r' || a == '\n')) = true := by
  unfold urlparseNetloc at h
  split at h
  · have h1 : a ∈ stripScheme (urlStripControlChars cs) :=
      List.mem_of_mem_drop (mem_of_mem_takeWhile h)
    have h2 : a ∈ urlStripControlChars cs := mem_stripScheme h1
    have h3 := List.mem_filter.mp h2
    refine ⟨h3.1, ?_, h3.2⟩
    have h4 := List.mem_takeWhile_imp h
    simpa using h4
  · cases h

/-- No colon, slash, tab, CR or LF survives `simplify_url`. -/
theorem simplify_url_chars (s : String) :
    ∀ a ∈ (simplify_url s).data,
      a ≠ ':' ∧ a ≠ '/' ∧ (!(a == '\t' || a == '\r' || a == '\n')) = true := by
  intro a ha
  have ha1 : a ∈ (if (urlparseNetloc s.data).take 4 = ['w', 'w', 'w', '.']
      then (urlparseNetloc s.data).drop 4
      else urlparseNetloc s.data).takeWhile (fun c => c != ':') := ha
  have hcol : a ≠ ':' := by
    have := List.mem_takeWhile_imp ha1
    simpa [bne_iff_ne] using this
  have ha2 : a ∈ urlparseNetloc s.data := by
    have h' := mem_of_mem_takeWhile ha1
    by_cases hw : (urlparseNetloc s.data).take 4 = ['w', 'w', 'w', '.']
    · rw [if_pos hw] at h'; exact List.mem_of_mem_drop h'
    · rw [if_neg hw] at h'; exact h'
  obtain ⟨_, hslash, hunsafe⟩ := mem_urlparseNetloc ha2
  refine ⟨hcol, ?_, hunsafe⟩
  intro he
  rw [he] at hslash
  simp at hslash

/-- A string with no colon, no slash and no tab/CR/LF has an empty netloc,
so `simplify_url` sends it to `""`. -/
theorem simplify_url_of_plain (t : String)
    (h : ∀ a ∈ t.data,
      a ≠ ':' ∧ a ≠ '/' ∧ (!(a == '\t' || a == '\r' || a == '\n')) = true) :
    simplify_url t = "" := by
  have h1 : urlStripControlChars t.data = t.data :=
    List.filter_eq_self.mpr (fun a ha => (h a ha).2.2)
  have h2 : t.data.takeWhile (fun c => c != ':') = t.data :=
    takeWhile_eq_self_of_all (fun a ha => by simpa [bne_iff_ne] using (h a ha).1)
  have h3 : stripScheme t.data = t.data := by
    unfold stripScheme
    rw [h2]
    simp [Nat.lt_irrefl]
  have h4 : t.data.take 2 ≠ ['/', '/'] := by
    intro he
    have hm : '/' ∈ t.data :=
      List.mem_of_mem_take (he ▸ List.mem_cons_self '/' ['/'])
    exact (h '/' hm).2.1 rfl
  have hnet : urlparseNetloc t.data = [] := by
    unfold urlparseNetloc
    rw [h1, h3, if_neg h4]
  unfold simplify_url
  rw [hnet]
  rfl

/-- Applying `simplify_url` twice always yields the empty string: the
first application already removed every colon and slash, and without a
scheme or a leading `"//"` the netloc of the second parse is empty. -/
theorem simplify_url_twice (s : String) : simplify_url (simplify_url s) = "" :=
  simplify_url_of_plain (simplify_url s) (simplify_url_chars s)

/-! ## Behaviour of `main` runs -/

/-- C5 (amended): the code raises its not-found `ValueError` only on a
non-200 provider response.  When the configuration passes `extract_keys`
and both credentials are present, a non-200 response aborts the run in
`request_data` and nothing is written; a 200 response carrying zero
records is NOT treated as not-found (see the counterexample). -/
theorem main_run_non200 (cfg : Config) (b t ak tk : String)
    (resp : ProviderResponse) (tableContent : List (List (String × PyVal)))
    (hkeys : extract_keys cfg.airtableLink = (some b, some t))
    (hak : ak ≠ "") (htk : tk ≠ "") (hst : resp.status ≠ 200) :
    main_run cfg (some ak) (some tk) resp tableContent =
      { error? := some RunError.notFoundError, creates := [] } := by
  unfold main_run
  rw [hkeys]
  simp [hak, htk, hst]

/-- A link that `extract_keys` cannot parse makes `main` raise the
configuration `ValueError` before touching anything else. -/
theorem main_run_invalid_link (cfg : Config)
    (airtableKey tracxnKey : Option String) (resp : ProviderResponse)
    (tableContent : List (List (String × PyVal)))
    (h : extract_keys cfg.airtableLink = (Option.none, Option.none)) :
    main_run cfg airtableKey tracxnKey resp tableContent =
      { error? := some RunError.invalidAirtableUrl, creates := [] } := by
  unfold main_run
  rw [h]

/-! ## The claims -/

/-- C1: the spec says a run whose destination table already holds a row
with the candidate's URL ends in Skipped with no write performed.
Evaluating the orchestrator on exactly that run shows the opposite:
`main` calls `add_data_to_table` without `check_for_url`, the parameter
defaults to `False`, so the row is created unconditionally and the run
ends in success — the duplicate is written. -/
theorem main_run_duplicate_url_still_writes :
    main_run acmeConfig (some "key") (some "token")
      { status := 200, result? := some [acmeRecord] }
      [airRecord "rec1" [("URL", PyVal.str "acme.com")]] =
      { error? := Option.none,
        creates := [[("Company", PyVal.str "Acme"),
                     ("URL", PyVal.str "acme.com")]] } := rfl

/-- C2: the duplicate guard is claimed to return false (and not insert) on
an exact URL match and true (and insert) otherwise.  Evaluating
`add_data_to_table` with the check enabled on well-formed Airtable records
shows that for the duplicate candidate `a.com` AND for the fresh candidate
`c.com` it raises `KeyError` — the condition reads `row["field"]` where
records only have a `"fields"` key — and nothing is ever inserted. -/
theorem add_data_to_table_guard_raises :
    (add_data_to_table [("URL", PyVal.str "a.com")]
        [airRecord "rec1" [("URL", PyVal.str "a.com")],
         airRecord "rec2" [("URL", PyVal.str "b.com")]]
        [("URL", "URL")] true).result = Except.error ()
    ∧ (add_data_to_table [("URL", PyVal.str "a.com")]
        [airRecord "rec1" [("URL", PyVal.str "a.com")],
         airRecord "rec2" [("URL", PyVal.str "b.com")]]
        [("URL", "URL")] true).creates = []
    ∧ (add_data_to_table [("URL", PyVal.str "c.com")]
        [airRecord "rec1" [("URL", PyVal.str "a.com")],
         airRecord "rec2" [("URL", PyVal.str "b.com")]]
        [("URL", "URL")] true).result = Except.error ()
    ∧ (add_data_to_table [("URL", PyVal.str "c.com")]
        [airRecord "rec1" [("URL", PyVal.str "a.com")],
         airRecord "rec2" [("URL", PyVal.str "b.com")]]
        [("URL", "URL")] true).creates = [] :=
  ⟨rfl, rfl, rfl, rfl⟩

/-- C3: the spec says a scheme-less input is treated as if prefixed with a
default scheme so that host extraction succeeds,
`normalize("example.com") == "example.com"`.  Evaluating `simplify_url` at
that input shows the host is lost instead: `urlparse`'s `scheme='http'`
default only fills the `.scheme` field and does not make `"example.com"`
parse as a netloc, so the function returns `""`. -/
theorem simplify_url_schemeless_loses_host :
    simplify_url "example.com" = ""
    ∧ simplify_url "example.com" ≠ "example.com" :=
  ⟨by decide, by decide⟩

/-- C4: the spec claims `normalize` is idempotent and strips scheme,
`www.`, path, query and port.  The stripping holds for scheme-bearing
URLs (`normalize("https://www.Example.com:443/x") = "Example.com"`), but
idempotence fails: a second application always returns `""`, because the
first application removed every colon and slash and a scheme-less input
has an empty netloc.  (`main` relies on idempotence — it simplifies the
company link and `request_data` simplifies the result again.) -/
theorem simplify_url_not_idempotent :
    simplify_url "https://www.Example.com:443/x" = "Example.com"
    ∧ simplify_url (simplify_url "https://www.Example.com:443/x") = ""
    ∧ ∀ d : String, simplify_url (simplify_url d) = "" :=
  ⟨by decide, by decide, simplify_url_twice⟩

/-- C5 (counterexample): a run in which the provider answers 200 with zero
matching records does NOT end in the not-found error — the run succeeds
and a write is performed: `extract_data` maps zero records to an empty
dict and `main` passes it straight to `table.create`. -/
theorem main_run_zero_results_creates_empty_row :
    main_run acmeConfig (some "key") (some "token")
      { status := 200, result? := some [] } [] =
      { error? := Option.none, creates := [[]] } := rfl

/-- C5 witness: a concrete non-200 run ends in the not-found error with no
write attempted. -/
theorem main_run_non200_witness :
    main_run acmeConfig (some "key") (some "token")
      { status := 404, result? := Option.none } [] =
      { error? := some RunError.notFoundError, creates := [] } :=
  main_run_non200 acmeConfig "appABC123" "tblXYZ789" "key" "token"
    { status := 404, result? := Option.none } [] (by decide) (by decide)
    (by decide) (by decide)

/-- C6 (counterexample): the claim speaks of the canonical field
`"Headquarters"`, but the source's dispatch table spells it
`"Headquaters"`.  A mapping entry `"Headquarters" → "HQ"` on a record with
city, country and continent all present contributes nothing to the output
row — no joined value appears under `"HQ"`. -/
theorem extract_data_headquarters_name_unknown :
    extract_data [hqRecord] [("Headquarters", "HQ")] = []
    ∧ dictGet? (extract_data [hqRecord] [("Headquarters", "HQ")]) "HQ" =
        Option.none :=
  ⟨rfl, rfl⟩

/-- C6 (amended): for the canonical field as actually spelled,
`"Headquaters"`, mapped to a non-empty destination column targeted by no
other entry, the output value under that column is the comma-joined
city, country, continent when all three are present, and the field fails
locally (the `None` marker, no joined value) when any part — or the
location itself — is missing. -/
theorem extract_data_headquaters_joined (m : List (String × String))
    (c : CompanyRecord) (col : String)
    (hmem : ("Headquaters", col) ∈ m) (hcol : col ≠ "")
    (hall : ∀ p ∈ m, p.2 = col → p = ("Headquaters", col)) :
    dictGet? (extract_data [c] m) col = some (hqValue c) := by
  have hproc : processField "Headquaters" c = some (match c.location with
      | some loc =>
        match loc.city, loc.country, loc.continent with
        | some ci, some co, some ct =>
            Except.ok (PyVal.str (String.intercalate ", " [ci, co, ct]))
        | _, _, _ => Except.error ()
      | Option.none => Except.error ()) := rfl
  rw [dictGet?_extract_data_single m c "Headquaters" col _ hmem hcol hall hproc]
  cases hloc : c.location with
  | none => simp [hqValue, hloc, extractedValue]
  | some loc =>
    rcases loc with ⟨ci, co, ct⟩
    rcases ci with _ | ci <;> rcases co with _ | co <;> rcases ct with _ | ct <;>
      simp [hqValue, hloc, extractedValue]

/-- C6 witness: on a fully-populated location the configured column holds
the joined string. -/
theorem extract_data_headquaters_joined_witness :
    dictGet? (extract_data [hqRecord] [("Headquaters", "HQ")]) "HQ" =
      some (PyVal.str "Berlin, Germany, Europe") := by
  have h := extract_data_headquaters_joined [("Headquaters", "HQ")] hqRecord
    "HQ" (by decide) (by decide) (by decide)
  exact h.trans rfl

/-- C7 (counterexample): the claim says the Logo value is an empty list
whenever `logos.imageUrl` is not a usable URL.  The code instead stores a
one-element tuple containing an empty list when `imageUrl` is present but
empty (the trailing comma in the lambda builds a tuple), and the `None`
marker when `imageUrl` is missing — neither is the empty list. -/
theorem extract_data_logo_not_empty_list :
    dictGet? (extract_data [logoEmptyUrlRecord] [("Logo", "L")]) "L" =
      some (PyVal.tuple [PyVal.list []])
    ∧ some (PyVal.tuple [PyVal.list []]) ≠ some (PyVal.list [])
    ∧ dictGet? (extract_data [logoMissingUrlRecord] [("Logo", "L")]) "L" =
      some PyVal.none :=
  ⟨rfl, by simp, rfl⟩

/-- C7 (amended): for the canonical field `"Logo"` mapped to a non-empty
destination column targeted by no other entry, the value stored is a
one-element tuple holding the attachment dict `{"url": imageUrl}` when
`imageUrl` is present and non-empty, a one-element tuple holding an empty
list when `imageUrl` is present but empty, and the `None` marker (local
field failure) when `logos` or `imageUrl` is missing. -/
theorem extract_data_logo_shape (m : List (String × String))
    (c : CompanyRecord) (col : String)
    (hmem : ("Logo", col) ∈ m) (hcol : col ≠ "")
    (hall : ∀ p ∈ m, p.2 = col → p = ("Logo", col)) :
    dictGet? (extract_data [c] m) col = some (logoValue c) := by
  have hproc : processField "Logo" c = some (match c.logos with
      | some (some u) =>
          Except.ok (if u ≠ "" then PyVal.tuple [PyVal.dict [("url", PyVal.str u)]]
                     else PyVal.tuple [PyVal.list []])
      | _ => Except.error ()) := rfl
  rw [dictGet?_extract_data_single m c "Logo" col _ hmem hcol hall hproc]
  cases hlog : c.logos with
  | none => simp [logoValue, hlog, extractedValue]
  | some io => rcases io with _ | u <;> simp [logoValue, hlog, extractedValue]

/-- C7 witness: a normal logo URL is stored as a one-element tuple holding
the attachment dict. -/
theorem extract_data_logo_shape_witness :
    dictGet? (extract_data [logoOkRecord] [("Logo", "L")]) "L" =
      some (PyVal.tuple
        [PyVal.dict [("url", PyVal.str "https://img.tracxn.com/logo.png")]]) := by
  have h := extract_data_logo_shape [("Logo", "L")] logoOkRecord "L"
    (by decide) (by decide) (by decide)
  exact h.trans rfl

/-- C8: when the processing of one configured canonical field raises
(missing or malformed source attribute), that field's destination column
receives the explicit `None` marker, the mapper does not raise (it is a
total function), and every other configured field whose extraction
succeeds still receives its extracted value — one field's failure never
aborts the mapping. -/
theorem extract_data_failure_field_local (m : List (String × String))
    (c : CompanyRecord) (f col : String)
    (hmem : (f, col) ∈ m) (hcol : col ≠ "")
    (hall : ∀ p ∈ m, p.2 = col → p = (f, col))
    (hfail : processField f c = some (Except.error ())) :
    dictGet? (extract_data [c] m) col = some PyVal.none
    ∧ ∀ (g col' : String) (v : PyVal), (g, col') ∈ m → col' ≠ "" →
        (∀ p ∈ m, p.2 = col' → p = (g, col')) →
        processField g c = some (Except.ok v) →
        dictGet? (extract_data [c] m) col' = some v := by
  constructor
  · exact dictGet?_extract_data_single m c f col _ hmem hcol hall hfail
  · intro g col' v hmem' hcol' hall' hok
    exact dictGet?_extract_data_single m c g col' _ hmem' hcol' hall' hok

/-- C8 witness: a record with no `description` under the mapping
`Short Description → "Desc", Name → "Company"`: the failing field stores
`None`, the unrelated field still stores its value. -/
theorem extract_data_failure_field_local_witness :
    dictGet? (extract_data [acmeRecord]
      [("Short Description", "Desc"), ("Name", "Company")]) "Desc" =
        some PyVal.none
    ∧ dictGet? (extract_data [acmeRecord]
      [("Short Description", "Desc"), ("Name", "Company")]) "Company" =
        some (PyVal.str "Acme") := by
  have h := extract_data_failure_field_local
    [("Short Description", "Desc"), ("Name", "Company")] acmeRecord
    "Short Description" "Desc" (by decide) (by decide) (by decide) rfl
  exact ⟨h.1, h.2 "Name" "Company" (PyVal.str "Acme") (by decide) (by decide)
    (by decide) rfl⟩

/-- C9: every key of the row built by `extract_data` is a destination
column that the mapping assigns to some canonical field with a non-empty
name; fields absent from the mapping, or mapped to an empty destination,
contribute no key at all. -/
theorem extract_data_keys_configured (m : List (String × String))
    (result : List CompanyRecord) (q : String × PyVal)
    (h : q ∈ extract_data result m) : ∃ f, (f, q.1) ∈ m ∧ q.1 ≠ "" := by
  have h' := @mem_extract_data m q result [] h
  rcases h' with h' | h'
  · cases h'
  · exact h'

/-- C9 witness: the key `"Company"` of a mapped row is the configured
destination of the canonical field `"Name"`. -/
theorem extract_data_keys_configured_witness :
    ∃ f, (f, "Company") ∈ [("Name", "Company")] ∧ "Company" ≠ "" :=
  extract_data_keys_configured [("Name", "Company")] [acmeRecord]
    ("Company", PyVal.str "Acme")
    (by
      have e : extract_data [acmeRecord] [("Name", "Company")] =
          [("Company", PyVal.str "Acme")] := rfl
      rw [e]
      exact List.mem_singleton.mpr rfl)

/-- C10: `extract_keys` recovers the base and table identifiers from a
well-shaped Airtable link, answers `(None, None)` on a link that does not
match the shape, and `main` surfaces that not-found answer as the
configuration `ValueError` (aborting with no write) rather than ignoring
it. -/
theorem extract_keys_shape :
    extract_keys "https://airtable.com/appABC123/tblXYZ789/viwDEF" =
      (some "appABC123", some "tblXYZ789")
    ∧ extract_keys "https://example.com/notmatching" =
      (Option.none, Option.none)
    ∧ ∀ (cfg : Config) (airtableKey tracxnKey : Option String)
        (resp : ProviderResponse)
        (tableContent : List (List (String × PyVal))),
        extract_keys cfg.airtableLink = (Option.none, Option.none) →
        main_run cfg airtableKey tracxnKey resp tableContent =
          { error? := some RunError.invalidAirtableUrl, creates := [] } :=
  ⟨by decide, by decide,
    fun cfg ak tk resp tc h => main_run_invalid_link cfg ak tk resp tc h⟩

/-- C10 witness: a run configured with an unparseable link aborts with the
configuration error and writes nothing. -/
theorem extract_keys_shape_witness :
    main_run { fields := [], airtableLink := "https://example.com/notmatching",
               companyLink := "acme.com" } Option.none Option.none
      { status := 200, result? := Option.none } [] =
      { error? := some RunError.invalidAirtableUrl, creates := [] } :=
  extract_keys_shape.2.2 _ Option.none Option.none _ [] (by decide)
